import Mathlib

/-!
Verification of the background-task orchestration and notification fan-out
core of the GeoSpatial Disaster-AI backend, as a shallow embedding of
`src/backend/tasks.py`, `src/backend/db.py`, `src/backend/models.py` and
`src/backend/services/websocket_service.py`.

Timestamps (`datetime.utcnow()`) are modelled as natural numbers supplied by
the caller at each operation; serialized payloads are opaque strings; the
durable backend's connectivity on each call is a boolean `dbUp` supplied by
the environment (when `dbUp = false` the durable call raises, which is what
the `except Exception` handlers in `tasks.py` catch).
-/

namespace DisasterAI

/-! ### Python dict / set helpers

Python dicts have unique keys and preserve insertion order; assignment to an
existing key replaces the value in place, assignment to a fresh key appends.
We model them as association lists with those operations. -/

def dictGet {α : Type} : List (String × α) → String → Option α
  | [], _ => none
  | (k, v) :: rest, key => if k == key then some v else dictGet rest key

def dictInsert {α : Type} : List (String × α) → String → α → List (String × α)
  | [], key, v => [(key, v)]
  | (k, w) :: rest, key, v =>
    if k == key then (key, v) :: rest else (k, w) :: dictInsert rest key v

def dictErase {α : Type} : List (String × α) → String → List (String × α)
  | [], _ => []
  | (k, v) :: rest, key => if k == key then rest else (k, v) :: dictErase rest key

def keyErase : List String → String → List String
  | [], _ => []
  | k :: rest, key => if k == key then rest else k :: keyErase rest key

/-- Python `set.add` on a duplicate-free list model of a set. -/
def setAdd (s : List String) (x : String) : List String :=
  if x ∈ s then s else s ++ [x]

/-- Python `set.discard` on the list model of a set. -/
def setDiscard (s : List String) (x : String) : List String :=
  s.filter (fun y => y != x)

/-! ### Data model — `src/backend/models.py` -/

/-- Embedding of `TaskStatus(str, Enum)` from models.py lines 35-40. -/
inductive TaskStatus
  | pending
  | processing
  | completed
  | failed
deriving DecidableEq, Repr

/-- Embedding of `AnalysisRequest` (models.py lines 93-100): its only role in the task
core is to be serialized by `model_dump_json`, so it is carried as its
serialized rendering. -/
structure AnalysisRequest where
  dump : String
deriving DecidableEq, Repr

def AnalysisRequest.model_dump_json (r : AnalysisRequest) : String := r.dump

/-- Embedding of `AnalysisResult` (models.py lines 103-117): the task core treats it as an
opaque serializable value, so it is carried as its serialized rendering. -/
structure AnalysisResult where
  dump : String
deriving DecidableEq, Repr

def AnalysisResult.model_dump_json (r : AnalysisResult) : String := r.dump

/-- Embedding of `TaskDB` pydantic model, models.py lines 334-344.  Note the declared
fields: there is a `request_data` field but no `request` field. -/
structure TaskDB where
  id : Option Nat
  task_id : String
  status : TaskStatus
  progress : Nat
  request_data : String
  result_data : Option String
  error_message : Option String
  created_at : Nat
  updated_at : Nat
deriving DecidableEq, Repr

/-- Embedding of `TaskDB.from_request`, models.py lines 364-375. -/
def TaskDB.from_request (task_id : String) (request : AnalysisRequest) (now : Nat) : TaskDB :=
  { id := none
    task_id := task_id
    status := .pending
    progress := 0
    request_data := request.model_dump_json
    result_data := none
    error_message := none
    created_at := now
    updated_at := now }

/-- Embedding of `TaskInfo`, models.py lines 132-140. -/
structure TaskInfo where
  task_id : String
  status : TaskStatus
  progress : Nat
  created_at : Nat
  updated_at : Option Nat
  result : Option AnalysisResult
  error : Option String
deriving DecidableEq, Repr

/-! ### Durable store — `src/backend/db.py`

The `tasks` table is a list of ORM rows; `task_id` carries a unique
constraint, and queries by `task_id` use `.first()`, modelled by
first-match lookup. -/

/-- One row of the `tasks` table (`TaskORM`, db.py lines 25-37). -/
structure TaskORM where
  id : Nat
  task_id : String
  status : TaskStatus
  progress : Nat
  request_data : String
  result_data : Option String
  error_message : Option String
  created_at : Nat
  updated_at : Nat
deriving DecidableEq, Repr

abbrev Database := List TaskORM

def rowToTaskDB (r : TaskORM) : TaskDB :=
  { id := some r.id
    task_id := r.task_id
    status := r.status
    progress := r.progress
    request_data := r.request_data
    result_data := r.result_data
    error_message := r.error_message
    created_at := r.created_at
    updated_at := r.updated_at }

/-- Embedding of `db.query(TaskORM).filter(TaskORM.task_id == task_id).first()`. -/
def rowFind (db : Database) (tid : String) : Option TaskORM :=
  db.find? (fun r => r.task_id == tid)

/-- Autoincrement primary key assignment on insert. -/
def nextId (db : Database) : Nat :=
  (db.map TaskORM.id).foldr max 0 + 1

/-- Embedding of `create_task_in_db`, db.py lines 54-79.  `created_at`/`updated_at` come
from the server defaults at insert time. -/
def create_task_in_db (db : Database) (now : Nat) (t : TaskDB) : Database × TaskDB :=
  let row : TaskORM :=
    { id := nextId db
      task_id := t.task_id
      status := t.status
      progress := t.progress
      request_data := t.request_data
      result_data := t.result_data
      error_message := t.error_message
      created_at := now
      updated_at := now }
  (db ++ [row], rowToTaskDB row)

/-- Embedding of `get_task_from_db`, db.py lines 82-99. -/
def get_task_from_db (db : Database) (tid : String) : Option TaskDB :=
  (rowFind db tid).map rowToTaskDB

/-- The field-level row mutation performed by `update_task_in_db`
(db.py lines 115-124): each `is not None` argument overwrites its field,
and `updated_at` is always set to the present call time. -/
def updateRow (r : TaskORM) (now : Nat) (status : Option TaskStatus) (progress : Option Nat)
    (result_data : Option String) (error_message : Option String) : TaskORM :=
  { r with
    status := status.getD r.status
    progress := progress.getD r.progress
    result_data := match result_data with
      | some s => some s
      | none => r.result_data
    error_message := match error_message with
      | some s => some s
      | none => r.error_message
    updated_at := now }

/-- Replace the first row whose `task_id` matches (the row object mutated by
the ORM session before `commit`). -/
def setFirstRow : Database → String → TaskORM → Database
  | [], _, _ => []
  | r :: rest, tid, row => if r.task_id = tid then row :: rest else r :: setFirstRow rest tid row

/-- Embedding of `update_task_in_db`, db.py lines 102-138. -/
def update_task_in_db (db : Database) (now : Nat) (tid : String)
    (status : Option TaskStatus) (progress : Option Nat)
    (result_data : Option String) (error_message : Option String) :
    Database × Option TaskDB :=
  match rowFind db tid with
  | none => (db, none)
  | some r =>
    let row := updateRow r now status progress result_data error_message
    (setFirstRow db tid row, some (rowToTaskDB row))

/-- Remove the first row whose `task_id` matches. -/
def eraseFirstRow : Database → String → Database
  | [], _ => []
  | r :: rest, tid => if r.task_id = tid then rest else r :: eraseFirstRow rest tid

/-- Embedding of `delete_task_from_db`, db.py lines 141-150. -/
def delete_task_from_db (db : Database) (tid : String) : Database × Bool :=
  match rowFind db tid with
  | none => (db, false)
  | some _ => (eraseFirstRow db tid, true)

/-- Embedding of `list_tasks_from_db`, db.py lines 153-171: order by `created_at`
descending (stable), take `limit`. -/
def list_tasks_from_db (db : Database) (limit : Nat) : List TaskDB :=
  ((db.mergeSort (fun a b => Nat.ble b.created_at a.created_at)).take limit).map rowToTaskDB

/-- Embedding of `cleanup_old_tasks_from_db`, db.py lines 174-182. -/
def cleanup_old_tasks_from_db (db : Database) (now : Nat) (max_age_hours : Nat) :
    Database × Nat :=
  let cutoff := now - 3600 * max_age_hours
  let deleted := db.filter (fun r => r.created_at < cutoff)
  (db.filter (fun r => !(r.created_at < cutoff : Bool)), deleted.length)

/-! ### Resilient task store — `src/backend/tasks.py`, class `TaskStore`

Each operation receives `dbUp : Bool`, the durable backend's connectivity for
the duration of that call: when `dbUp = false` every durable call inside the
operation raises, which the operation's `except Exception` handler catches.
The returned `durableInvoked` flag records whether the operation touched the
durable backend at all. -/

/-- Python exceptions that the embedded code raises or catches. -/
inductive PyExc
  | dbError
  | attributeError (attr : String)
deriving DecidableEq, Repr

/-- Outcome of running a piece of Python code: a normal return value or a
propagated exception. -/
inductive PyResult (α : Type)
  | ok (a : α)
  | exn (e : PyExc)
deriving DecidableEq, Repr

def PyResult.isOk {α : Type} : PyResult α → Bool
  | .ok _ => true
  | .exn _ => false

/-- A durable-backend call: returns its value when the backend is reachable,
raises otherwise. -/
def dbCall {α : Type} (dbUp : Bool) (a : α) : PyResult α :=
  if dbUp then .ok a else .exn .dbError

/-- Embedding of `TaskStore.__init__`, tasks.py lines 43-45. -/
structure StoreState where
  fallback_tasks : List (String × TaskDB)
  use_fallback : Bool
deriving DecidableEq, Repr

/-- The store's state together with the durable database it wraps. -/
structure World where
  db : Database
  store : StoreState
deriving DecidableEq, Repr

def initStore : StoreState := { fallback_tasks := [], use_fallback := false }

/-- Result of one store operation: the Python-level return, the successor
world, and whether the durable backend was invoked. -/
structure OpRet (α : Type) where
  ret : PyResult α
  world : World
  durableInvoked : Bool
deriving Repr

namespace TaskStore

/-- Embedding of `TaskStore.create_task`, tasks.py lines 47-65.  Note: this method does
NOT consult `use_fallback` — it always attempts the durable backend; only
its own failure handler sets `use_fallback = True`. -/
def create_task (w : World) (dbUp : Bool) (now : Nat) (freshId : String)
    (request : AnalysisRequest) : OpRet String :=
  let task_db := TaskDB.from_request freshId request now
  match dbCall dbUp (create_task_in_db w.db now task_db) with
  | .ok (db', created) =>
    { ret := .ok created.task_id, world := { w with db := db' }, durableInvoked := true }
  | .exn _ =>
    { ret := .ok freshId
      world := { w with store :=
        { fallback_tasks := dictInsert w.store.fallback_tasks freshId task_db
          use_fallback := true } }
      durableInvoked := true }

/-- Embedding of `TaskStore.get_task`, tasks.py lines 67-76. -/
def get_task (w : World) (dbUp : Bool) (tid : String) : OpRet (Option TaskDB) :=
  if w.store.use_fallback then
    { ret := .ok (dictGet w.store.fallback_tasks tid), world := w, durableInvoked := false }
  else
    match dbCall dbUp (get_task_from_db w.db tid) with
    | .ok t => { ret := .ok t, world := w, durableInvoked := true }
    | .exn _ =>
      { ret := .ok (dictGet w.store.fallback_tasks tid), world := w, durableInvoked := true }

/-- The in-memory mutation of a fallback `TaskDB` performed by
`TaskStore.update_task` (tasks.py lines 92-101 and 125-134): each
non-`None` argument overwrites its field, a provided result is stored as
its JSON dump, and `updated_at` is set to the present call time. -/
def applyFallbackUpdate (t : TaskDB) (now : Nat) (status : Option TaskStatus)
    (progress : Option Nat) (result : Option AnalysisResult) (error : Option String) : TaskDB :=
  { t with
    status := status.getD t.status
    progress := progress.getD t.progress
    result_data := match result with
      | some r => some r.model_dump_json
      | none => t.result_data
    error_message := match error with
      | some e => some e
      | none => t.error_message
    updated_at := now }

/-- The shared fallback branch of `TaskStore.update_task` (tasks.py lines
87-102 and 119-135). -/
def updateFallback (w : World) (now : Nat) (tid : String) (status : Option TaskStatus)
    (progress : Option Nat) (result : Option AnalysisResult) (error : Option String)
    (invoked : Bool) : OpRet Bool :=
  match dictGet w.store.fallback_tasks tid with
  | none => { ret := .ok false, world := w, durableInvoked := invoked }
  | some t =>
    let t' := applyFallbackUpdate t now status progress result error
    { ret := .ok true
      world := { w with store :=
        { w.store with fallback_tasks := dictInsert w.store.fallback_tasks tid t' } }
      durableInvoked := invoked }

/-- Embedding of `TaskStore.update_task`, tasks.py lines 78-135. -/
def update_task (w : World) (dbUp : Bool) (now : Nat) (tid : String)
    (status : Option TaskStatus) (progress : Option Nat)
    (result : Option AnalysisResult) (error : Option String) : OpRet Bool :=
  if w.store.use_fallback then
    updateFallback w now tid status progress result error false
  else
    let result_data := result.map AnalysisResult.model_dump_json
    match dbCall dbUp (update_task_in_db w.db now tid status progress result_data error) with
    | .ok (db', updated) =>
      { ret := .ok updated.isSome, world := { w with db := db' }, durableInvoked := true }
    | .exn _ =>
      updateFallback w now tid status progress result error true

/-- Embedding of `TaskStore.delete_task`, tasks.py lines 137-152. -/
def delete_task (w : World) (dbUp : Bool) (tid : String) : OpRet Bool :=
  if w.store.use_fallback then
    if (dictGet w.store.fallback_tasks tid).isSome then
      { ret := .ok true
        world := { w with store :=
          { w.store with fallback_tasks := dictErase w.store.fallback_tasks tid } }
        durableInvoked := false }
    else
      { ret := .ok false, world := w, durableInvoked := false }
  else
    match dbCall dbUp (delete_task_from_db w.db tid) with
    | .ok (db', found) =>
      { ret := .ok found, world := { w with db := db' }, durableInvoked := true }
    | .exn _ =>
      if (dictGet w.store.fallback_tasks tid).isSome then
        { ret := .ok true
          world := { w with store :=
            { w.store with fallback_tasks := dictErase w.store.fallback_tasks tid } }
          durableInvoked := true }
      else
        { ret := .ok false, world := w, durableInvoked := true }

/-- The `TaskDB → TaskInfo` conversion repeated in `get_task_info` and
`list_tasks` (tasks.py lines 160-176, 190-206, 212-229): the stored result
blob, when truthy, is parsed inside `try/except`, with a failed parse
yielding `result = None`.  `parse` stands for
`AnalysisResult.model_validate(json.loads(·))`, with `none` for a raised
parse/validation error. -/
def taskView (parse : String → Option AnalysisResult) (t : TaskDB) : TaskInfo :=
  let result := match t.result_data with
    | some s => if s == "" then none else parse s
    | none => none
  { task_id := t.task_id
    status := t.status
    progress := t.progress
    created_at := t.created_at
    updated_at := some t.updated_at
    result := result
    error := t.error_message }

/-- Embedding of `TaskStore.get_task_info`, tasks.py lines 154-176. -/
def get_task_info (w : World) (dbUp : Bool) (parse : String → Option AnalysisResult)
    (tid : String) : OpRet (Option TaskInfo) :=
  match (get_task w dbUp tid).ret with
  | .ok none =>
    { ret := .ok none, world := (get_task w dbUp tid).world
      durableInvoked := (get_task w dbUp tid).durableInvoked }
  | .ok (some t) =>
    { ret := .ok (some (taskView parse t)), world := (get_task w dbUp tid).world
      durableInvoked := (get_task w dbUp tid).durableInvoked }
  | .exn e =>
    { ret := .exn e, world := (get_task w dbUp tid).world
      durableInvoked := (get_task w dbUp tid).durableInvoked }

/-- The fallback listing (tasks.py lines 181-207 and 233-259): fallback
tasks sorted by `created_at` descending (Python `sorted` is stable),
truncated to `limit`. -/
def sortedFallback (m : List (String × TaskDB)) (limit : Nat) : List TaskDB :=
  ((m.map Prod.snd).mergeSort (fun a b => Nat.ble b.created_at a.created_at)).take limit

/-- Embedding of `TaskStore.list_tasks`, tasks.py lines 178-259. -/
def list_tasks (w : World) (dbUp : Bool) (parse : String → Option AnalysisResult)
    (limit : Nat) : OpRet (List TaskInfo) :=
  if w.store.use_fallback then
    { ret := .ok ((sortedFallback w.store.fallback_tasks limit).map (taskView parse))
      world := w, durableInvoked := false }
  else
    match dbCall dbUp (list_tasks_from_db w.db limit) with
    | .ok tasks =>
      { ret := .ok (tasks.map (taskView parse)), world := w, durableInvoked := true }
    | .exn _ =>
      { ret := .ok ((sortedFallback w.store.fallback_tasks limit).map (taskView parse))
        world := w, durableInvoked := true }

/-- The fallback sweep of `cleanup_old_tasks` (tasks.py lines 263-275 and
280-292). -/
def cleanupFallback (w : World) (now : Nat) (max_age_hours : Nat) (invoked : Bool) : OpRet Nat :=
  let cutoff := now - 3600 * max_age_hours
  let toDelete := w.store.fallback_tasks.filter (fun p => p.2.created_at < cutoff)
  { ret := .ok toDelete.length
    world := { w with store :=
      { w.store with fallback_tasks :=
          w.store.fallback_tasks.filter (fun p => !(p.2.created_at < cutoff : Bool)) } }
    durableInvoked := invoked }

/-- Embedding of `TaskStore.cleanup_old_tasks`, tasks.py lines 261-292. -/
def cleanup_old_tasks (w : World) (dbUp : Bool) (now : Nat) (max_age_hours : Nat) : OpRet Nat :=
  if w.store.use_fallback then
    cleanupFallback w now max_age_hours false
  else
    match dbCall dbUp (cleanup_old_tasks_from_db w.db now max_age_hours) with
    | .ok (db', count) =>
      { ret := .ok count, world := { w with db := db' }, durableInvoked := true }
    | .exn _ =>
      cleanupFallback w now max_age_hours true

end TaskStore

/-! ### Task processor — `src/backend/tasks.py`, class `TaskProcessor`

`submit_task` (lines 353-367) wraps `process_analysis` in an asyncio task,
records it in `_running_tasks`, and registers a done-callback that removes
the entry once the coroutine finishes (or is cancelled).  The interleaving
of coroutine starts, cancellations and done-callbacks is modelled by the
event system `ProcSys`/`step` below. -/

/-- Embedding of `TaskProcessor.process_analysis`, tasks.py lines 312-351.  The body
fetches the record and then evaluates `task.request` in the guard
`if not task or not task.request:` (line 320).  `TaskDB` (models.py lines
334-344) declares `request_data` but no attribute `request`, and pydantic
models raise `AttributeError` on undeclared attribute access, so for an
existing record the coroutine raises before reaching the `try:` block at
line 323; no store write is performed in either case. -/
def TaskProcessor.process_analysis (w : World) (dbUp : Bool) (tid : String) :
    PyResult Unit × World :=
  match (TaskStore.get_task w dbUp tid).ret with
  | .ok none => (.ok (), (TaskStore.get_task w dbUp tid).world)
  | .ok (some _) => (.exn (.attributeError "request"), (TaskStore.get_task w dbUp tid).world)
  | .exn e => (.exn e, (TaskStore.get_task w dbUp tid).world)

/-- Lifecycle of one submitted coroutine: created but not yet run by the
event loop, or already run to its (normal or raising) end. -/
inductive CoState
  | scheduled
  | finished
deriving DecidableEq, Repr

/-- State of the processor subsystem: the wrapped store, the
`_running_tasks` keys, the per-coroutine run state, and the set of task ids
whose asyncio task has had `.cancel()` requested. -/
structure ProcSys where
  world : World
  running : List String
  coro : List (String × CoState)
  cancelled : List String
deriving DecidableEq, Repr

def initSys : ProcSys :=
  { world := { db := [], store := initStore }, running := [], coro := [], cancelled := [] }

/-- Embedding of `TaskProcessor.cancel_task`, tasks.py lines 369-387: when the id is
tracked in `_running_tasks` it requests cancellation of the asyncio task
and unconditionally updates the record to Failed with the sentinel
message; otherwise it is a no-op returning `False`. -/
def TaskProcessor.cancel_task (s : ProcSys) (dbUp : Bool) (now : Nat) (tid : String) :
    ProcSys × Bool :=
  if tid ∈ s.running then
    ({ s with
        world := (TaskStore.update_task s.world dbUp now tid (some .failed) none none
          (some "Task cancelled by user")).world
        cancelled := tid :: s.cancelled }, true)
  else
    (s, false)

/-- Environment events interleaving on the single-threaded loop:
`create` is `create_analysis_task` (tasks.py lines 466-489) on the async
path — store creation followed by `submit_task`; `runCoro` is the event
loop running a scheduled, not-yet-cancelled coroutine to its end (the body
has no await point before it returns or raises, so it runs atomically);
`cancel` is `cancel_analysis_task`; `doneCb` is the done-callback removing
the entry from `_running_tasks` after the coroutine finished or was
cancelled. -/
inductive Event
  | create (request : AnalysisRequest) (freshId : String) (dbUp : Bool) (now : Nat)
  | runCoro (tid : String) (dbUp : Bool)
  | cancel (tid : String) (dbUp : Bool) (now : Nat)
  | doneCb (tid : String)
deriving DecidableEq, Repr

def step (s : ProcSys) (e : Event) : ProcSys :=
  match e with
  | .create request freshId dbUp now =>
    if (dictGet s.coro freshId).isSome then s
    else
      { world := (TaskStore.create_task s.world dbUp now freshId request).world
        running := s.running ++ [freshId]
        coro := s.coro ++ [(freshId, .scheduled)]
        cancelled := s.cancelled }
  | .runCoro tid dbUp =>
    if dictGet s.coro tid = some .scheduled ∧ tid ∉ s.cancelled then
      { s with
        world := (TaskProcessor.process_analysis s.world dbUp tid).2
        coro := dictInsert s.coro tid .finished }
    else s
  | .cancel tid dbUp now => (TaskProcessor.cancel_task s dbUp now tid).1
  | .doneCb tid =>
    if tid ∈ s.running ∧ (dictGet s.coro tid = some .finished ∨ tid ∈ s.cancelled) then
      { s with running := keyErase s.running tid }
    else s

def run (es : List Event) : ProcSys :=
  es.foldl step initSys

/-- The record holding a task's state, wherever it lives: every reachable
task exists in at most one backend, with the fallback dict consulted
first. -/
def obsTask (w : World) (tid : String) : Option TaskDB :=
  match dictGet w.store.fallback_tasks tid with
  | some t => some t
  | none => get_task_from_db w.db tid

def obsStatus (s : ProcSys) (tid : String) : Option TaskStatus :=
  (obsTask s.world tid).map TaskDB.status

/-- The successive distinct status values a given task's record takes along
a run: a status is appended whenever a step changes the observation. -/
def traceAux (s : ProcSys) (tid : String) (cur : Option TaskStatus) :
    List Event → List TaskStatus
  | [] => []
  | e :: rest =>
    (if obsStatus (step s e) tid ≠ cur then (obsStatus (step s e) tid).toList else [])
      ++ traceAux (step s e) tid (obsStatus (step s e) tid) rest

def statusTrace (es : List Event) (tid : String) : List TaskStatus :=
  traceAux initSys tid none es

def TaskStatus.isTerminal : TaskStatus → Bool
  | .completed => true
  | .failed => true
  | _ => false

/-! ### Connection registry — `src/backend/services/websocket_service.py`,
class `ConnectionManager`

The WebSocket objects themselves carry no state the registry reads; the
only thing a socket does is accept or fail a send, modelled by a per-client
oracle `sendOk`.  Messages are Python dicts of opaque values;
`json.dumps` is an arbitrary serialization function `dumps`. -/

inductive PyVal
  | str (s : String)
  | blob (data : String)
deriving DecidableEq, Repr

abbrev Msg := List (String × PyVal)

/-- Python dict item assignment `d[k] = v`. -/
def dictSet (m : Msg) (k : String) (v : PyVal) : Msg :=
  dictInsert m k v

/-- Embedding of `ConnectionManager.__init__`, websocket_service.py lines 24-27:
`active_connections` keyed by client id (the socket values are external),
`subscribed_categories` mapping client id to a set of category strings. -/
structure ConnectionManager where
  active_connections : List String
  subscribed_categories : List (String × List String)
deriving DecidableEq, Repr

namespace ConnectionManager

def empty : ConnectionManager := { active_connections := [], subscribed_categories := [] }

/-- Embedding of `connect`, websocket_service.py lines 29-34. -/
def connect (m : ConnectionManager) (client_id : String) : ConnectionManager :=
  { active_connections :=
      if client_id ∈ m.active_connections then m.active_connections
      else m.active_connections ++ [client_id]
    subscribed_categories := dictInsert m.subscribed_categories client_id [] }

/-- Embedding of `disconnect`, websocket_service.py lines 36-42. -/
def disconnect (m : ConnectionManager) (client_id : String) : ConnectionManager :=
  { active_connections := keyErase m.active_connections client_id
    subscribed_categories := dictErase m.subscribed_categories client_id }

/-- Embedding of `subscribe_to_category`, websocket_service.py lines 44-47: guarded only
by membership of the client id; the category string is not validated. -/
def subscribe_to_category (m : ConnectionManager) (client_id category : String) :
    ConnectionManager :=
  match dictGet m.subscribed_categories client_id with
  | none => m
  | some s =>
    { m with subscribed_categories :=
        dictInsert m.subscribed_categories client_id (setAdd s category) }

/-- Embedding of `unsubscribe_from_category`, websocket_service.py lines 49-52. -/
def unsubscribe_from_category (m : ConnectionManager) (client_id category : String) :
    ConnectionManager :=
  match dictGet m.subscribed_categories client_id with
  | none => m
  | some s =>
    { m with subscribed_categories :=
        dictInsert m.subscribed_categories client_id (setDiscard s category) }

/-- Result of a broadcast: the registry afterwards, the caller's message
dict afterwards (the source mutates it in place before the loop), and the
`(client_id, wire payload)` sends attempted, in order. -/
structure BroadcastRet where
  manager : ConnectionManager
  message : Msg
  sent : List (String × String)
deriving Repr

/-- The delivery loop of `broadcast_to_category` (websocket_service.py
lines 59-67): iterate over a snapshot of the connection items, re-checking
the live subscription map for each client; a failed send disconnects just
that client. -/
def categoryLoop (sendOk : String → Bool) (payload : String) (category : String) :
    List String → ConnectionManager → ConnectionManager × List (String × String)
  | [], m => (m, [])
  | cid :: rest, m =>
    match dictGet m.subscribed_categories cid with
    | some subs =>
      if subs.contains category then
        let m' := if sendOk cid then m else m.disconnect cid
        let r := categoryLoop sendOk payload category rest m'
        (r.1, (cid, payload) :: r.2)
      else categoryLoop sendOk payload category rest m
    | none => categoryLoop sendOk payload category rest m

/-- Embedding of `broadcast_to_category`, websocket_service.py lines 54-67. -/
def broadcast_to_category (m : ConnectionManager) (sendOk : String → Bool)
    (dumps : Msg → String) (now : String) (category : String) (message : Msg) :
    BroadcastRet :=
  let message := dictSet (dictSet message "timestamp" (.str now)) "category" (.str category)
  let payload := dumps message
  let r := categoryLoop sendOk payload category m.active_connections m
  { manager := r.1, message := message, sent := r.2 }

/-- The delivery loop of `broadcast_to_all` (websocket_service.py lines
73-79): every snapshot client is sent the payload, failures disconnect that
client only. -/
def allLoop (sendOk : String → Bool) (payload : String) :
    List String → ConnectionManager → ConnectionManager × List (String × String)
  | [], m => (m, [])
  | cid :: rest, m =>
    let m' := if sendOk cid then m else m.disconnect cid
    let r := allLoop sendOk payload rest m'
    (r.1, (cid, payload) :: r.2)

/-- Embedding of `broadcast_to_all`, websocket_service.py lines 69-79. -/
def broadcast_to_all (m : ConnectionManager) (sendOk : String → Bool)
    (dumps : Msg → String) (now : String) (message : Msg) : BroadcastRet :=
  let message := dictSet message "timestamp" (.str now)
  let payload := dumps message
  let r := allLoop sendOk payload m.active_connections m
  { manager := r.1, message := message, sent := r.2 }

end ConnectionManager

/-! ### Operation traces of the resilient store (for the fallback-switch
behaviour).  A trace is a sequence of store calls, each tagged with the
durable backend's connectivity for that call and the call's wall-clock
time. -/

inductive StoreOp
  | create (freshId : String) (request : AnalysisRequest)
  | get (tid : String)
  | update (tid : String) (status : Option TaskStatus) (progress : Option Nat)
      (result : Option AnalysisResult) (error : Option String)
  | delete (tid : String)
  | listTasks (limit : Nat)
  | cleanup (max_age_hours : Nat)
deriving DecidableEq, Repr

def StoreOp.isCreate : StoreOp → Bool
  | .create _ _ => true
  | _ => false

structure OpCall where
  op : StoreOp
  dbUp : Bool
  now : Nat
deriving DecidableEq, Repr

/-- Dispatch one store call; returns the successor world, whether the
durable backend was invoked, and whether an invoked durable call raised. -/
def runStoreOp (parse : String → Option AnalysisResult) (w : World) (c : OpCall) :
    World × Bool × Bool :=
  let fin {α : Type} (r : OpRet α) : World × Bool × Bool :=
    (r.world, r.durableInvoked, r.durableInvoked && !c.dbUp)
  match c.op with
  | .create freshId request => fin (TaskStore.create_task w c.dbUp c.now freshId request)
  | .get tid => fin (TaskStore.get_task w c.dbUp tid)
  | .update tid status progress result error =>
    fin (TaskStore.update_task w c.dbUp c.now tid status progress result error)
  | .delete tid => fin (TaskStore.delete_task w c.dbUp tid)
  | .listTasks limit => fin (TaskStore.list_tasks w c.dbUp parse limit)
  | .cleanup max_age_hours => fin (TaskStore.cleanup_old_tasks w c.dbUp c.now max_age_hours)

/-- The per-call `(durableInvoked, durableFailed)` flags along a trace. -/
def opFlags (parse : String → Option AnalysisResult) : World → List OpCall →
    List (Bool × Bool)
  | _, [] => []
  | w, c :: cs =>
    let r := runStoreOp parse w c
    (r.2.1, r.2.2) :: opFlags parse r.1 cs

/-- The property claimed of the store: once an invoked durable call has
failed, no later call in the trace invokes the durable backend. -/
def noDurableAfterFirstFailure : List (Bool × Bool) → Bool
  | [] => true
  | (_, failed) :: rest =>
    if failed then rest.all (fun p => !p.1) else noDurableAfterFirstFailure rest

def initWorld : World := { db := [], store := initStore }

/-! ### Concrete instances used by witnesses and counterexamples,
and the reachability invariant of the processor system -/

/-- Whether `cid` currently passes the subscription check of
`broadcast_to_category` (websocket_service.py lines 60-61). -/
def subscribedTo (m : ConnectionManager) (category cid : String) : Bool :=
  match dictGet m.subscribed_categories cid with
  | some subs => subs.contains category
  | none => false

def c7mgr : ConnectionManager :=
  ((ConnectionManager.empty.connect "a").connect "b").subscribe_to_category "a" "alerts"

/-- The topics named by the spec and validated by the connect path of the
route layer (realtime_routes.py line 34); `ConnectionManager` itself never
consults this list. -/
def knownCategories : List String := ["disasters", "alerts", "system"]

def c8mgr : ConnectionManager := ConnectionManager.empty.connect "a"

def c6task : TaskDB := TaskDB.from_request "t" ⟨"req"⟩ 3

def c6row : TaskORM :=
  { id := 1, task_id := "t", status := .pending, progress := 0, request_data := "req"
    result_data := none, error_message := none, created_at := 3, updated_at := 3 }

def c2task : TaskDB := TaskDB.from_request "t" ⟨"req"⟩ 0

def c2world : World :=
  { db := [], store := { fallback_tasks := [("t", c2task)], use_fallback := true } }

def c9task : TaskDB :=
  { id := none, task_id := "t", status := .completed, progress := 100
    request_data := "r", result_data := some "garbage", error_message := none
    created_at := 3, updated_at := 7 }

def c9world : World :=
  { db := [], store := { fallback_tasks := [("t", c9task)], use_fallback := true } }

def c1req : AnalysisRequest := ⟨"req"⟩

def c1trace : List OpCall :=
  [ { op := .create "t1" c1req, dbUp := false, now := 0 },
    { op := .create "t2" c1req, dbUp := true, now := 1 } ]

def c1failingCreate : OpCall := { op := .create "t1" c1req, dbUp := false, now := 0 }

def c1getCall : OpCall := { op := .get "t1", dbUp := true, now := 1 }

/-- The record shapes actually produced by the code's writers: `create`
writes Pending with empty result and error; `cancel_task` writes Failed
with the sentinel error and no result.  (The Processing/Completed writes of
`process_analysis` are dead code behind the `task.request` AttributeError,
see C2.) -/
def recordOk (t : TaskDB) : Prop :=
  (t.status = .pending ∧ t.result_data = none ∧ t.error_message = none)
  ∨ (t.status = .failed ∧ t.result_data = none
      ∧ t.error_message = some "Task cancelled by user")

def SysInv (s : ProcSys) : Prop :=
  (s.world.store.use_fallback = false → s.world.store.fallback_tasks = [])
  ∧ (∀ tid, dictGet s.coro tid = none → obsTask s.world tid = none)
  ∧ (∀ tid t, obsTask s.world tid = some t → recordOk t)

/-- The remaining allowed status chain from a given observation, in the
state machine the code actually implements. -/
def chainFrom : Option TaskStatus → List TaskStatus
  | none => [.pending, .failed]
  | some .pending => [.failed]
  | some _ => []

def c3req : AnalysisRequest := ⟨"req"⟩

/-- Create task "t" (durable backend down, so it lives in the fallback
store), then cancel it before the event loop ever runs its coroutine. -/
def c3events : List Event := [.create c3req "t" false 0, .cancel "t" false 1]

/-- The record produced by `c3events`: created Pending in the fallback
store, then marked Failed by the cancel. -/
def c4task : TaskDB :=
  { id := none, task_id := "t", status := .failed, progress := 0, request_data := "req"
    result_data := none, error_message := some "Task cancelled by user"
    created_at := 0, updated_at := 1 }

/-! ### Lemmas about the dict and table models -/

theorem dictGet_dictInsert_self {α : Type} (m : List (String × α)) (k : String) (v : α) :
    dictGet (dictInsert m k v) k = some v := by
  induction m with
  | nil => simp [dictInsert, dictGet]
  | cons p rest ih =>
    obtain ⟨k1, v1⟩ := p
    by_cases h : k1 = k
    · simp [dictInsert, dictGet, h]
    · simp [dictInsert, dictGet, h, ih]

theorem dictGet_dictInsert_ne {α : Type} (m : List (String × α)) (k k' : String) (v : α)
    (h : k' ≠ k) : dictGet (dictInsert m k v) k' = dictGet m k' := by
  induction m with
  | nil => simp [dictInsert, dictGet, Ne.symm h]
  | cons p rest ih =>
    obtain ⟨k1, v1⟩ := p
    by_cases h1 : k1 = k
    · subst h1
      simp [dictInsert, dictGet, Ne.symm h]
    · by_cases h2 : k1 = k'
      · simp [dictInsert, dictGet, h1, h2, h]
      · simp [dictInsert, dictGet, h1, h2, ih]

theorem dictGet_dictErase_ne {α : Type} (m : List (String × α)) (k k' : String)
    (h : k' ≠ k) : dictGet (dictErase m k) k' = dictGet m k' := by
  induction m with
  | nil => simp [dictErase, dictGet]
  | cons p rest ih =>
    obtain ⟨k1, v1⟩ := p
    by_cases h1 : k1 = k
    · subst h1
      simp [dictErase, dictGet, Ne.symm h]
    · by_cases h2 : k1 = k'
      · simp [dictErase, dictGet, h1, h2, h]
      · simp [dictErase, dictGet, h1, h2, ih]

theorem rowFind_append (db : Database) (row : TaskORM) (tid : String) :
    rowFind (db ++ [row]) tid
      = (rowFind db tid).or (if row.task_id = tid then some row else none) := by
  by_cases hx : row.task_id = tid
  · have hb : (row.task_id == tid) = true := by simp [hx]
    simp [rowFind, List.find?_append, List.find?_cons, hb, hx]
  · have hb : (row.task_id == tid) = false := by simp [hx]
    simp [rowFind, List.find?_append, List.find?_cons, hb, hx]

theorem rowFind_setFirstRow_self (db : Database) (tid : String) (row : TaskORM)
    (hrow : row.task_id = tid) :
    rowFind (setFirstRow db tid row) tid
      = if (rowFind db tid).isSome then some row else none := by
  have hbrow : (row.task_id == tid) = true := by simp [hrow]
  induction db with
  | nil => simp [setFirstRow, rowFind]
  | cons x rest ih =>
    by_cases hx : x.task_id = tid
    · have hb : (x.task_id == tid) = true := by simp [hx]
      simp [setFirstRow, rowFind, List.find?_cons, hx, hb, hbrow]
    · have hb : (x.task_id == tid) = false := by simp [hx]
      simp only [setFirstRow, if_neg hx, rowFind, List.find?_cons, hb] at ih ⊢
      exact ih

theorem rowFind_setFirstRow_ne (db : Database) (tid tid' : String) (row : TaskORM)
    (hrow : row.task_id = tid) (h : tid' ≠ tid) :
    rowFind (setFirstRow db tid row) tid' = rowFind db tid' := by
  induction db with
  | nil => simp [setFirstRow]
  | cons x rest ih =>
    by_cases hx : x.task_id = tid
    · have hx' : (x.task_id == tid') = false := by rw [hx]; simp [Ne.symm h]
      have hr' : (row.task_id == tid') = false := by rw [hrow]; simp [Ne.symm h]
      have ht : (tid == tid') = false := by simp [Ne.symm h]
      simp [setFirstRow, rowFind, List.find?_cons, hx, hx', hr', ht]
    · by_cases hx2 : x.task_id = tid'
      · have hb2 : (x.task_id == tid') = true := by simp [hx2]
        simp [setFirstRow, rowFind, List.find?_cons, hx, hb2]
      · have hb2 : (x.task_id == tid') = false := by simp [hx2]
        simp only [setFirstRow, if_neg hx, rowFind, List.find?_cons, hb2] at ih ⊢
        exact ih

/-! ### Lemmas about the connection registry loops -/

theorem disconnect_subscribed_ne (m : ConnectionManager) (cid c : String) (h : c ≠ cid) :
    dictGet (m.disconnect cid).subscribed_categories c = dictGet m.subscribed_categories c :=
  dictGet_dictErase_ne _ _ _ h

theorem categoryLoop_payload (sendOk : String → Bool) (payload category : String) :
    ∀ (snapshot : List String) (m : ConnectionManager) (p : String × String),
      p ∈ (ConnectionManager.categoryLoop sendOk payload category snapshot m).2 →
      p.2 = payload := by
  intro snapshot
  induction snapshot with
  | nil =>
    intro m p hp
    simp [ConnectionManager.categoryLoop] at hp
  | cons cid rest ih =>
    intro m p hp
    rcases hg : dictGet m.subscribed_categories cid with _ | subs
    · rw [ConnectionManager.categoryLoop, hg] at hp
      exact ih _ p hp
    · rw [ConnectionManager.categoryLoop, hg] at hp
      cases hc : subs.contains category with
      | true =>
        simp only [hc, if_true] at hp
        simp only [List.mem_cons] at hp
        rcases hp with hp | hp
        · rw [hp]
        · exact ih _ p hp
      | false =>
        simp only [hc, Bool.false_eq_true, if_false] at hp
        exact ih _ p hp

theorem allLoop_payload (sendOk : String → Bool) (payload : String) :
    ∀ (snapshot : List String) (m : ConnectionManager) (p : String × String),
      p ∈ (ConnectionManager.allLoop sendOk payload snapshot m).2 → p.2 = payload := by
  intro snapshot
  induction snapshot with
  | nil =>
    intro m p hp
    simp [ConnectionManager.allLoop] at hp
  | cons cid rest ih =>
    intro m p hp
    rw [ConnectionManager.allLoop] at hp
    simp only [List.mem_cons] at hp
    rcases hp with hp | hp
    · rw [hp]
    · exact ih _ p hp

theorem categoryLoop_clients (sendOk : String → Bool) (payload category : String) :
    ∀ (snapshot : List String) (mc m0 : ConnectionManager),
      snapshot.Nodup →
      (∀ c ∈ snapshot,
        dictGet mc.subscribed_categories c = dictGet m0.subscribed_categories c) →
      ((ConnectionManager.categoryLoop sendOk payload category snapshot mc).2).map Prod.fst
        = snapshot.filter (subscribedTo m0 category) := by
  intro snapshot
  induction snapshot with
  | nil =>
    intro mc m0 _ _
    simp [ConnectionManager.categoryLoop]
  | cons cid rest ih =>
    intro mc m0 hnd hagree
    have hcid := hagree cid (List.mem_cons_self cid rest)
    have hndrest : rest.Nodup := hnd.of_cons
    have hcidrest : cid ∉ rest := (List.nodup_cons.mp hnd).1
    have hagreerest : ∀ c ∈ rest,
        dictGet mc.subscribed_categories c = dictGet m0.subscribed_categories c :=
      fun c hc => hagree c (List.mem_cons_of_mem cid hc)
    rcases hg : dictGet mc.subscribed_categories cid with _ | subs
    · rw [ConnectionManager.categoryLoop, hg]
      have hsub : subscribedTo m0 category cid = false := by
        unfold subscribedTo
        rw [← hcid, hg]
      rw [List.filter_cons_of_neg (by rw [hsub]; exact Bool.false_ne_true)]
      exact ih mc m0 hndrest hagreerest
    · rw [ConnectionManager.categoryLoop, hg]
      have hsub : subscribedTo m0 category cid = subs.contains category := by
        unfold subscribedTo
        rw [← hcid, hg]
      cases hc : subs.contains category with
      | true =>
        simp only [hc, if_true, List.map_cons]
        rw [List.filter_cons_of_pos (by rw [hsub, hc])]
        by_cases hs : sendOk cid
        · simp only [hs, if_true]
          rw [ih mc m0 hndrest hagreerest]
        · simp only [hs, if_false, Bool.false_eq_true]
          have hagree' : ∀ c ∈ rest,
              dictGet (mc.disconnect cid).subscribed_categories c
                = dictGet m0.subscribed_categories c := by
            intro c hcr
            rw [disconnect_subscribed_ne mc cid c (fun he => hcidrest (he ▸ hcr))]
            exact hagreerest c hcr
          rw [ih (mc.disconnect cid) m0 hndrest hagree']
      | false =>
        simp only [hc, Bool.false_eq_true, if_false]
        rw [List.filter_cons_of_neg (by rw [hsub, hc]; exact Bool.false_ne_true)]
        exact ih mc m0 hndrest hagreerest

/-! ### Claim C7 -/

/-- C7: every publish of a message to a topic attempts delivery to exactly
the live connections whose subscription set contains that topic — and, in
particular, a connection whose subscription set does not contain the
published topic (for example one subscribed only to "alerts" when the
topic is "disasters" or "system") is never sent the message. -/
theorem c7_topic_isolation (m : ConnectionManager) (sendOk : String → Bool)
    (dumps : Msg → String) (now category : String) (message : Msg)
    (hnodup : m.active_connections.Nodup) :
    ((m.broadcast_to_category sendOk dumps now category message).sent.map Prod.fst
        = m.active_connections.filter (subscribedTo m category))
  ∧ (∀ cid subs, dictGet m.subscribed_categories cid = some subs →
      subs.contains category = false →
      cid ∉ (m.broadcast_to_category sendOk dumps now category message).sent.map Prod.fst) := by
  have hmain := categoryLoop_clients sendOk
    (dumps (dictSet (dictSet message "timestamp" (.str now)) "category" (.str category)))
    category m.active_connections m m hnodup (fun _ _ => rfl)
  constructor
  · exact hmain
  · intro cid subs hg hc hin
    simp only [ConnectionManager.broadcast_to_category] at hin
    rw [hmain] at hin
    have := (List.mem_filter.mp hin).2
    simp only [subscribedTo, hg, hc] at this
    exact Bool.false_ne_true this

/-- Witness for C7 at a concrete registry: client "a" subscribed only to
"alerts" receives nothing from a publish to "disasters". -/
theorem c7_witness :
    (c7mgr.broadcast_to_category (fun _ => true) (fun _ => "wire") "T" "disasters"
        [("type", PyVal.str "x")]).sent.map Prod.fst = [] := by
  have h := c7_topic_isolation c7mgr (fun _ => true) (fun _ => "wire") "T" "disasters"
    [("type", PyVal.str "x")] (by decide)
  rw [h.1]
  decide

/-! ### Claim C8 -/

/-- C8 counterexample: subscribing a live client to a topic outside the
known set {disasters, alerts, system} is NOT a no-op —
`subscribe_to_category` performs no topic validation and records the bogus
topic in the client's subscription set. -/
theorem c8_counterexample :
    knownCategories.contains "bogus" = false
  ∧ ConnectionManager.subscribe_to_category c8mgr "a" "bogus" ≠ c8mgr
  ∧ dictGet (ConnectionManager.subscribe_to_category c8mgr "a" "bogus").subscribed_categories
      "a" = some ["bogus"] := by
  refine ⟨by decide, by decide, by decide⟩

/-- C8 (amended): `subscribe_to_category` and `unsubscribe_from_category`
are no-ops when the client id has no live subscription entry; no topic
validation is performed (any topic string is added or discarded); and in
every case the subscription set of every other client and the connection
list are left unchanged. -/
theorem c8_subscription_noop (m : ConnectionManager) (cid category other : String) :
    (dictGet m.subscribed_categories cid = none →
      m.subscribe_to_category cid category = m
      ∧ m.unsubscribe_from_category cid category = m)
  ∧ (other ≠ cid →
      dictGet (m.subscribe_to_category cid category).subscribed_categories other
        = dictGet m.subscribed_categories other
      ∧ dictGet (m.unsubscribe_from_category cid category).subscribed_categories other
        = dictGet m.subscribed_categories other)
  ∧ (m.subscribe_to_category cid category).active_connections = m.active_connections
  ∧ (m.unsubscribe_from_category cid category).active_connections = m.active_connections := by
  refine ⟨?_, ?_, ?_, ?_⟩
  · intro h
    constructor
    · simp [ConnectionManager.subscribe_to_category, h]
    · simp [ConnectionManager.unsubscribe_from_category, h]
  · intro hne
    constructor
    · rcases hg : dictGet m.subscribed_categories cid with _ | s
      · simp [ConnectionManager.subscribe_to_category, hg]
      · simp only [ConnectionManager.subscribe_to_category, hg]
        exact dictGet_dictInsert_ne _ _ _ _ hne
    · rcases hg : dictGet m.subscribed_categories cid with _ | s
      · simp [ConnectionManager.unsubscribe_from_category, hg]
      · simp only [ConnectionManager.unsubscribe_from_category, hg]
        exact dictGet_dictInsert_ne _ _ _ _ hne
  · rcases hg : dictGet m.subscribed_categories cid with _ | s <;>
      simp [ConnectionManager.subscribe_to_category, hg]
  · rcases hg : dictGet m.subscribed_categories cid with _ | s <;>
      simp [ConnectionManager.unsubscribe_from_category, hg]

/-- Witness for C8 (amended) at concrete registries. -/
theorem c8_witness :
    ConnectionManager.empty.subscribe_to_category "a" "alerts" = ConnectionManager.empty
  ∧ dictGet ((c8mgr.connect "b").subscribe_to_category "b" "alerts").subscribed_categories "a"
      = dictGet (c8mgr.connect "b").subscribed_categories "a" := by
  have h1 := c8_subscription_noop ConnectionManager.empty "a" "alerts" "x"
  have h2 := c8_subscription_noop (c8mgr.connect "b") "b" "alerts" "a"
  exact ⟨(h1.1 rfl).1, (h2.2.1 (by decide)).1⟩

/-! ### Claim C10 -/

/-- C10: both broadcast operations mutate the caller's message dict in
place before delivery — after the call the caller's dict carries a
'timestamp' entry assigned at publish time (and, for
`broadcast_to_category`, a 'category' entry equal to the published topic),
and every wire payload sent is the serialization of that mutated dict. -/
theorem c10_broadcast_mutates_message (m : ConnectionManager) (sendOk : String → Bool)
    (dumps : Msg → String) (now category : String) (message : Msg) :
    ((m.broadcast_to_category sendOk dumps now category message).message
        = dictSet (dictSet message "timestamp" (.str now)) "category" (.str category))
  ∧ (∀ p ∈ (m.broadcast_to_category sendOk dumps now category message).sent,
        p.2 = dumps (m.broadcast_to_category sendOk dumps now category message).message)
  ∧ ((m.broadcast_to_all sendOk dumps now message).message
        = dictSet message "timestamp" (.str now))
  ∧ (∀ p ∈ (m.broadcast_to_all sendOk dumps now message).sent,
        p.2 = dumps (m.broadcast_to_all sendOk dumps now message).message) := by
  refine ⟨rfl, ?_, rfl, ?_⟩
  · intro p hp
    exact categoryLoop_payload sendOk _ category m.active_connections m p hp
  · intro p hp
    exact allLoop_payload sendOk _ m.active_connections m p hp

/-- Witness for C10 at a concrete registry and message. -/
theorem c10_witness :
    (("a", "wire") : String × String).2
      = (fun _ : Msg => "wire")
          (((ConnectionManager.empty.connect "a").broadcast_to_all (fun _ => true)
            (fun _ => "wire") "T" [("type", PyVal.str "x")]).message) := by
  have h := c10_broadcast_mutates_message (ConnectionManager.empty.connect "a")
    (fun _ => true) (fun _ => "wire") "T" "disasters" [("type", PyVal.str "x")]
  exact h.2.2.2 ("a", "wire") (by decide)

/-! ### Lemmas about the resilient store operations -/

theorem create_task_isOk (w : World) (dbUp : Bool) (now : Nat) (freshId : String)
    (request : AnalysisRequest) :
    (TaskStore.create_task w dbUp now freshId request).ret.isOk = true := by
  cases dbUp <;> simp [TaskStore.create_task, dbCall, PyResult.isOk]

theorem get_task_ret_ok (w : World) (dbUp : Bool) (tid : String) :
    ∃ o, (TaskStore.get_task w dbUp tid).ret = .ok o := by
  cases hf : w.store.use_fallback
  · cases dbUp <;> simp [TaskStore.get_task, dbCall, hf]
  · simp [TaskStore.get_task, hf]

theorem get_task_isOk (w : World) (dbUp : Bool) (tid : String) :
    (TaskStore.get_task w dbUp tid).ret.isOk = true := by
  obtain ⟨o, ho⟩ := get_task_ret_ok w dbUp tid
  rw [ho]
  rfl

theorem get_task_world (w : World) (dbUp : Bool) (tid : String) :
    (TaskStore.get_task w dbUp tid).world = w := by
  cases hf : w.store.use_fallback <;> cases dbUp <;>
    simp [TaskStore.get_task, dbCall, hf]

theorem updateFallback_isOk (w : World) (now : Nat) (tid : String)
    (status : Option TaskStatus) (progress : Option Nat) (result : Option AnalysisResult)
    (error : Option String) (invoked : Bool) :
    (TaskStore.updateFallback w now tid status progress result error invoked).ret.isOk
      = true := by
  unfold TaskStore.updateFallback
  split <;> rfl

theorem update_task_isOk (w : World) (dbUp : Bool) (now : Nat) (tid : String)
    (status : Option TaskStatus) (progress : Option Nat) (result : Option AnalysisResult)
    (error : Option String) :
    (TaskStore.update_task w dbUp now tid status progress result error).ret.isOk = true := by
  unfold TaskStore.update_task
  split
  · exact updateFallback_isOk _ _ _ _ _ _ _ _
  · cases dbUp
    · exact updateFallback_isOk _ _ _ _ _ _ _ _
    · rfl

theorem delete_task_isOk (w : World) (dbUp : Bool) (tid : String) :
    (TaskStore.delete_task w dbUp tid).ret.isOk = true := by
  unfold TaskStore.delete_task
  split
  · split <;> rfl
  · cases dbUp
    · split
      · rfl
      · split <;> rfl
    · rfl

theorem get_task_info_isOk (w : World) (dbUp : Bool)
    (parse : String → Option AnalysisResult) (tid : String) :
    (TaskStore.get_task_info w dbUp parse tid).ret.isOk = true := by
  obtain ⟨o, ho⟩ := get_task_ret_ok w dbUp tid
  unfold TaskStore.get_task_info
  rw [ho]
  cases o <;> rfl

theorem list_tasks_isOk (w : World) (dbUp : Bool)
    (parse : String → Option AnalysisResult) (limit : Nat) :
    (TaskStore.list_tasks w dbUp parse limit).ret.isOk = true := by
  cases hf : w.store.use_fallback
  · cases dbUp <;> simp [TaskStore.list_tasks, dbCall, hf, PyResult.isOk]
  · simp [TaskStore.list_tasks, hf, PyResult.isOk]

theorem cleanup_old_tasks_isOk (w : World) (dbUp : Bool) (now max_age_hours : Nat) :
    (TaskStore.cleanup_old_tasks w dbUp now max_age_hours).ret.isOk = true := by
  cases hf : w.store.use_fallback
  · cases dbUp <;>
      simp [TaskStore.cleanup_old_tasks, TaskStore.cleanupFallback, dbCall, hf, PyResult.isOk]
  · simp [TaskStore.cleanup_old_tasks, TaskStore.cleanupFallback, hf, PyResult.isOk]

/-! ### Claim C5 -/

/-- C5: no operation of the resilient task store propagates a
durable-backend exception to its caller: whatever the backend connectivity
and the store state, every operation returns normally with its contractual
result shape (an id for create, an optional record for get, a boolean for
update/delete, an optional view for get_task_info, a list for list_tasks,
a count for cleanup). -/
theorem c5_no_exception_propagation (w : World) (dbUp : Bool) (now : Nat)
    (freshId tid : String) (request : AnalysisRequest) (status : Option TaskStatus)
    (progress : Option Nat) (result : Option AnalysisResult) (error : Option String)
    (parse : String → Option AnalysisResult) (limit max_age_hours : Nat) :
    (TaskStore.create_task w dbUp now freshId request).ret.isOk = true
  ∧ (TaskStore.get_task w dbUp tid).ret.isOk = true
  ∧ (TaskStore.update_task w dbUp now tid status progress result error).ret.isOk = true
  ∧ (TaskStore.delete_task w dbUp tid).ret.isOk = true
  ∧ (TaskStore.get_task_info w dbUp parse tid).ret.isOk = true
  ∧ (TaskStore.list_tasks w dbUp parse limit).ret.isOk = true
  ∧ (TaskStore.cleanup_old_tasks w dbUp now max_age_hours).ret.isOk = true :=
  ⟨create_task_isOk w dbUp now freshId request,
   get_task_isOk w dbUp tid,
   update_task_isOk w dbUp now tid status progress result error,
   delete_task_isOk w dbUp tid,
   get_task_info_isOk w dbUp parse tid,
   list_tasks_isOk w dbUp parse limit,
   cleanup_old_tasks_isOk w dbUp now max_age_hours⟩

/-! ### Claim C6 -/

/-- C6: a partial update touching any subset of
{status, progress, result payload, error message} leaves every unspecified
field unchanged — including the task id, the request payload and
`created_at` — and always stamps `updated_at` with the (later) call time.
This holds on both write paths: the in-memory fallback mutation and the
durable-row mutation of `update_task_in_db`, which is applied to exactly
the row found for the task id. -/
theorem c6_partial_update_frame (t : TaskDB) (r : TaskORM) (db : Database) (now : Nat)
    (tid : String) (status : Option TaskStatus) (progress : Option Nat)
    (result : Option AnalysisResult) (rd error : Option String) :
    ((TaskStore.applyFallbackUpdate t now status progress result error).task_id = t.task_id
      ∧ (TaskStore.applyFallbackUpdate t now status progress result error).request_data
          = t.request_data
      ∧ (TaskStore.applyFallbackUpdate t now status progress result error).created_at
          = t.created_at
      ∧ (TaskStore.applyFallbackUpdate t now status progress result error).id = t.id
      ∧ (status = none →
          (TaskStore.applyFallbackUpdate t now status progress result error).status = t.status)
      ∧ (progress = none →
          (TaskStore.applyFallbackUpdate t now status progress result error).progress
            = t.progress)
      ∧ (result = none →
          (TaskStore.applyFallbackUpdate t now status progress result error).result_data
            = t.result_data)
      ∧ (error = none →
          (TaskStore.applyFallbackUpdate t now status progress result error).error_message
            = t.error_message)
      ∧ (TaskStore.applyFallbackUpdate t now status progress result error).updated_at = now
      ∧ (t.updated_at < now →
          t.updated_at
            < (TaskStore.applyFallbackUpdate t now status progress result error).updated_at))
  ∧ ((updateRow r now status progress rd error).task_id = r.task_id
      ∧ (updateRow r now status progress rd error).request_data = r.request_data
      ∧ (updateRow r now status progress rd error).created_at = r.created_at
      ∧ (updateRow r now status progress rd error).id = r.id
      ∧ (status = none → (updateRow r now status progress rd error).status = r.status)
      ∧ (progress = none → (updateRow r now status progress rd error).progress = r.progress)
      ∧ (rd = none → (updateRow r now status progress rd error).result_data = r.result_data)
      ∧ (error = none →
          (updateRow r now status progress rd error).error_message = r.error_message)
      ∧ (updateRow r now status progress rd error).updated_at = now
      ∧ (r.updated_at < now →
          r.updated_at < (updateRow r now status progress rd error).updated_at))
  ∧ (rowFind db tid = some r →
      update_task_in_db db now tid status progress rd error
        = (setFirstRow db tid (updateRow r now status progress rd error),
           some (rowToTaskDB (updateRow r now status progress rd error)))) := by
  refine ⟨⟨rfl, rfl, rfl, rfl, ?_, ?_, ?_, ?_, rfl, fun h => h⟩,
          ⟨rfl, rfl, rfl, rfl, ?_, ?_, ?_, ?_, rfl, fun h => h⟩, ?_⟩
  · intro h; subst h; rfl
  · intro h; subst h; rfl
  · intro h; subst h; rfl
  · intro h; subst h; rfl
  · intro h; subst h; rfl
  · intro h; subst h; rfl
  · intro h; subst h; rfl
  · intro h; subst h; rfl
  · intro h
    unfold update_task_in_db
    rw [h]

/-- Witness for C6 at a concrete record, updating only the progress
field. -/
theorem c6_witness :
    (TaskStore.applyFallbackUpdate c6task 5 none (some 42) none none).status = c6task.status
  ∧ (TaskStore.applyFallbackUpdate c6task 5 none (some 42) none none).updated_at = 5
  ∧ c6task.updated_at
      < (TaskStore.applyFallbackUpdate c6task 5 none (some 42) none none).updated_at
  ∧ update_task_in_db [c6row] 5 "t" none (some 42) none none
      = (setFirstRow [c6row] "t" (updateRow c6row 5 none (some 42) none none),
         some (rowToTaskDB (updateRow c6row 5 none (some 42) none none))) := by
  have h := c6_partial_update_frame c6task c6row [c6row] 5 "t" none (some 42) none none none
  refine ⟨h.1.2.2.2.2.1 rfl, h.1.2.2.2.2.2.2.2.2.1, h.1.2.2.2.2.2.2.2.2.2 (by decide),
    h.2.2 (by decide)⟩

/-! ### Claim C2 -/

/-- C2 (code bug): for any store state in which the task record exists,
the execution unit `process_analysis` raises `AttributeError` on the
undeclared attribute `request` of the pydantic `TaskDB` model (tasks.py
line 320) before the `try:` block, performing no store write at all — it
never sets status=Processing, never invokes the analysis collaborator and
never records a terminal state, contrary to the documented execution
protocol. -/
theorem c2_process_analysis_raises (w : World) (dbUp : Bool) (tid : String) (task : TaskDB)
    (h : (TaskStore.get_task w dbUp tid).ret = .ok (some task)) :
    TaskProcessor.process_analysis w dbUp tid = (.exn (.attributeError "request"), w) := by
  unfold TaskProcessor.process_analysis
  rw [h, get_task_world]

/-- Witness for C2 at a concrete world holding the task record. -/
theorem c2_witness :
    TaskProcessor.process_analysis c2world true "t"
      = (.exn (.attributeError "request"), c2world) :=
  c2_process_analysis_raises c2world true "t" c2task (by decide)

/-! ### Claim C9 -/

theorem taskView_unparseable (parse : String → Option AnalysisResult) (task : TaskDB)
    (hparse : ∀ s, task.result_data = some s → parse s = none) :
    TaskStore.taskView parse task
      = { task_id := task.task_id, status := task.status, progress := task.progress,
          created_at := task.created_at, updated_at := some task.updated_at,
          result := none, error := task.error_message } := by
  unfold TaskStore.taskView
  cases hr : task.result_data with
  | none => rfl
  | some s =>
    by_cases hs : (s == "") = true
    · simp [hr, hs]
    · simp [hr, hs, hparse s hr]

theorem list_tasks_shape (w : World) (dbUp : Bool)
    (parse : String → Option AnalysisResult) (limit : Nat) :
    ∃ ts : List TaskDB,
      (TaskStore.list_tasks w dbUp parse limit).ret
        = .ok (ts.map (TaskStore.taskView parse)) := by
  unfold TaskStore.list_tasks
  split
  · exact ⟨_, rfl⟩
  · cases dbUp
    · exact ⟨_, rfl⟩
    · exact ⟨_, rfl⟩

/-- C9: a stored result blob that fails to parse as a serialized analysis
result never makes task views raise: `get_task_info` returns the view with
`result = None` and the identity, status, progress, timestamps and error
still populated from the record, and it returns absent exactly when the
record is absent; every element `list_tasks` returns is likewise a total
view of a record under the same parse. -/
theorem c9_invalid_result_tolerated (w : World) (dbUp : Bool)
    (parse : String → Option AnalysisResult) (tid : String) (task : TaskDB) (limit : Nat) :
    ((TaskStore.get_task w dbUp tid).ret = .ok (some task) →
      (∀ s, task.result_data = some s → parse s = none) →
      (TaskStore.get_task_info w dbUp parse tid).ret
        = .ok (some { task_id := task.task_id, status := task.status,
                      progress := task.progress, created_at := task.created_at,
                      updated_at := some task.updated_at, result := none,
                      error := task.error_message }))
  ∧ ((TaskStore.get_task w dbUp tid).ret = .ok none →
      (TaskStore.get_task_info w dbUp parse tid).ret = .ok none)
  ∧ (∀ infos, (TaskStore.list_tasks w dbUp parse limit).ret = .ok infos →
      ∀ info ∈ infos, ∃ t, info = TaskStore.taskView parse t) := by
  refine ⟨?_, ?_, ?_⟩
  · intro h hparse
    unfold TaskStore.get_task_info
    rw [h]
    show PyResult.ok (some (TaskStore.taskView parse task)) = _
    rw [taskView_unparseable parse task hparse]
  · intro h
    unfold TaskStore.get_task_info
    rw [h]
  · intro infos ho info hin
    obtain ⟨ts, hts⟩ := list_tasks_shape w dbUp parse limit
    rw [hts] at ho
    obtain rfl : ts.map (TaskStore.taskView parse) = infos := by
      cases ho
      rfl
    obtain ⟨t, _, ht⟩ := List.mem_map.mp hin
    exact ⟨t, ht.symm⟩

/-- Witness for C9 at a concrete record whose result blob no parse
accepts. -/
theorem c9_witness :
    (TaskStore.get_task_info c9world true (fun _ => none) "t").ret
      = .ok (some { task_id := "t", status := .completed, progress := 100, created_at := 3,
                    updated_at := some 7, result := none, error := none }) := by
  have h := c9_invalid_result_tolerated c9world true (fun _ => none) "t" c9task 50
  exact h.1 (by decide) (fun s _ => rfl)

/-! ### Claim C1 -/

theorem runStoreOp_fallback (parse : String → Option AnalysisResult) (w : World) (c : OpCall)
    (h : w.store.use_fallback = true) :
    (runStoreOp parse w c).1.store.use_fallback = true
  ∧ (runStoreOp parse w c).2.1 = c.op.isCreate := by
  obtain ⟨op, dbUp, now⟩ := c
  cases op with
  | create freshId request =>
    cases dbUp
    · exact ⟨rfl, rfl⟩
    · exact ⟨h, rfl⟩
  | get tid =>
    refine ⟨?_, ?_⟩ <;> simp [runStoreOp, TaskStore.get_task, h, StoreOp.isCreate]
  | update tid status progress result error =>
    refine ⟨?_, ?_⟩ <;>
      (simp only [runStoreOp, TaskStore.update_task, h, if_true, TaskStore.updateFallback]
       rcases hd : dictGet w.store.fallback_tasks tid with _ | t <;> simp [hd, h, StoreOp.isCreate])
  | delete tid =>
    refine ⟨?_, ?_⟩ <;>
      (simp only [runStoreOp, TaskStore.delete_task, h, if_true]
       by_cases hd : (dictGet w.store.fallback_tasks tid).isSome = true <;>
         simp [hd, h, StoreOp.isCreate])
  | listTasks limit =>
    refine ⟨?_, ?_⟩ <;> simp [runStoreOp, TaskStore.list_tasks, h, StoreOp.isCreate]
  | cleanup max_age_hours =>
    refine ⟨?_, ?_⟩ <;>
      simp [runStoreOp, TaskStore.cleanup_old_tasks, TaskStore.cleanupFallback, h,
        StoreOp.isCreate]

theorem opFlags_fallback (parse : String → Option AnalysisResult) :
    ∀ (cs : List OpCall) (w : World), w.store.use_fallback = true →
      ∀ p ∈ (opFlags parse w cs).zip cs,
        (p.2.op.isCreate = false → p.1.1 = false)
        ∧ (p.2.op.isCreate = true → p.1.1 = true) := by
  intro cs
  induction cs with
  | nil =>
    intro w h p hp
    simp [opFlags] at hp
  | cons c rest ih =>
    intro w h p hp
    have hf := runStoreOp_fallback parse w c h
    simp only [opFlags, List.zip_cons_cons, List.mem_cons] at hp
    rcases hp with hp | hp
    · subst hp
      refine ⟨?_, ?_⟩ <;> intro hcre <;> simp only [hf.2, hcre]
    · exact ih (runStoreOp parse w c).1 hf.1 p hp

/-- C1 counterexample: in the trace `c1trace` the first operation is a
create whose durable call fails (the first durable failure of the
lifetime), yet the very next operation still invokes the durable backend —
`create_task` never consults `use_fallback` before trying the durable
path, so the store does probe the durable backend again after the first
failure, contradicting the claim. -/
theorem c1_counterexample :
    opFlags (fun _ => none) initWorld c1trace = [(true, true), (true, false)]
  ∧ noDurableAfterFirstFailure (opFlags (fun _ => none) initWorld c1trace) = false :=
  ⟨by decide, by decide⟩

/-- C1 (amended): only a durable failure inside `create_task` switches the
store: after a create whose durable call fails, `use_fallback` is set, and
along any continuation trace every non-create operation is served without
invoking the durable backend, while every create still probes the durable
backend first (the switch is never consulted by `create_task`). -/
theorem c1_create_failure_switch (parse : String → Option AnalysisResult)
    (w : World) (c : OpCall) (cs : List OpCall)
    (hc : c.op.isCreate = true) (hdb : c.dbUp = false) :
    (runStoreOp parse w c).1.store.use_fallback = true
  ∧ (runStoreOp parse w c).2.1 = true
  ∧ (runStoreOp parse w c).2.2 = true
  ∧ (∀ p ∈ (opFlags parse (runStoreOp parse w c).1 cs).zip cs,
      (p.2.op.isCreate = false → p.1.1 = false)
      ∧ (p.2.op.isCreate = true → p.1.1 = true)) := by
  obtain ⟨op, dbUp, now⟩ := c
  cases op <;> simp [StoreOp.isCreate] at hc
  case create freshId request =>
  simp only at hdb
  subst hdb
  refine ⟨rfl, rfl, rfl, opFlags_fallback parse cs _ rfl⟩

/-- Witness for C1 (amended): after the failing create, a later get does
not invoke the durable backend. -/
theorem c1_witness :
    (runStoreOp (fun _ => none) initWorld c1failingCreate).1.store.use_fallback = true
  ∧ ((opFlags (fun _ => none) (runStoreOp (fun _ => none) initWorld c1failingCreate).1
        [c1getCall]).zip [c1getCall]).all (fun p => !p.1.1) = true := by
  have h := c1_create_failure_switch (fun _ => none) initWorld c1failingCreate [c1getCall]
    rfl rfl
  exact ⟨h.1, by decide⟩

/-! ### Reachable-state invariant of the processor system (for C3 and C4) -/

theorem dictGet_append_single {α : Type} (m : List (String × α)) (k tid : String) (v : α) :
    dictGet (m ++ [(k, v)]) tid
      = (dictGet m tid).or (if k = tid then some v else none) := by
  induction m with
  | nil =>
    by_cases hk : k = tid <;> simp [dictGet, hk]
  | cons p rest ih =>
    obtain ⟨k1, v1⟩ := p
    by_cases h1 : k1 = tid <;> simp [dictGet, h1, ih]

theorem obsTask_none_elim (w : World) (tid : String) (h : obsTask w tid = none) :
    dictGet w.store.fallback_tasks tid = none ∧ rowFind w.db tid = none := by
  unfold obsTask at h
  rcases hd : dictGet w.store.fallback_tasks tid with _ | t
  · rw [hd] at h
    refine ⟨rfl, ?_⟩
    unfold get_task_from_db at h
    rcases hr : rowFind w.db tid with _ | r
    · rfl
    · rw [hr] at h
      simp at h
  · rw [hd] at h
    simp at h

theorem rowFind_task_id (db : Database) (tid : String) (r : TaskORM)
    (h : rowFind db tid = some r) : r.task_id = tid := by
  have := List.find?_some h
  simpa using this

theorem process_analysis_world (w : World) (dbUp : Bool) (tid : String) :
    (TaskProcessor.process_analysis w dbUp tid).2 = w := by
  unfold TaskProcessor.process_analysis
  obtain ⟨o, ho⟩ := get_task_ret_ok w dbUp tid
  rw [ho]
  cases o <;> simp [get_task_world]

theorem create_task_obs (w : World) (dbUp : Bool) (now : Nat) (fresh : String)
    (req : AnalysisRequest) (hnone : obsTask w fresh = none) :
    (∀ tid, tid ≠ fresh →
      obsTask (TaskStore.create_task w dbUp now fresh req).world tid = obsTask w tid)
  ∧ (∃ t, obsTask (TaskStore.create_task w dbUp now fresh req).world fresh = some t
      ∧ t.status = .pending ∧ t.result_data = none ∧ t.error_message = none)
  ∧ ((TaskStore.create_task w dbUp now fresh req).world.store = w.store
      ∨ (TaskStore.create_task w dbUp now fresh req).world.store.use_fallback = true) := by
  obtain ⟨hfb, hdb⟩ := obsTask_none_elim w fresh hnone
  cases dbUp
  · -- durable create raises: fallback insert, switch set
    refine ⟨?_, ?_, Or.inr rfl⟩
    · intro tid hne
      show (match dictGet (dictInsert w.store.fallback_tasks fresh
            (TaskDB.from_request fresh req now)) tid with
        | some t => some t
        | none => get_task_from_db w.db tid) = obsTask w tid
      rw [dictGet_dictInsert_ne _ _ _ _ hne]
      rfl
    · refine ⟨TaskDB.from_request fresh req now, ?_, rfl, rfl, rfl⟩
      show (match dictGet (dictInsert w.store.fallback_tasks fresh
            (TaskDB.from_request fresh req now)) fresh with
        | some t => some t
        | none => get_task_from_db w.db fresh) = _
      rw [dictGet_dictInsert_self]
  · -- durable create succeeds: row appended to the table
    refine ⟨?_, ?_, Or.inl rfl⟩
    · intro tid hne
      show (match dictGet w.store.fallback_tasks tid with
        | some t => some t
        | none => get_task_from_db (w.db ++ [_]) tid) = obsTask w tid
      rcases hd : dictGet w.store.fallback_tasks tid with _ | t
      · unfold obsTask get_task_from_db
        rw [hd, rowFind_append]
        have : (TaskDB.from_request fresh req now).task_id = fresh := rfl
        rw [if_neg (by rw [this]; exact fun he => hne he.symm)]
        rcases hr : rowFind w.db tid with _ | r <;> rfl
      · unfold obsTask
        rw [hd]
    · refine ⟨rowToTaskDB
        { id := nextId w.db, task_id := fresh, status := .pending, progress := 0
          request_data := req.model_dump_json, result_data := none, error_message := none
          created_at := now, updated_at := now }, ?_, rfl, rfl, rfl⟩
      show (match dictGet w.store.fallback_tasks fresh with
        | some t => some t
        | none => get_task_from_db (w.db ++ [_]) fresh) = _
      rw [hfb]
      unfold get_task_from_db
      rw [rowFind_append, hdb]
      simp [TaskDB.from_request]

theorem update_failed_obs (w : World) (dbUp : Bool) (now : Nat) (tid : String)
    (hfb : w.store.use_fallback = false → w.store.fallback_tasks = []) :
    (∀ tid', tid' ≠ tid →
      obsTask (TaskStore.update_task w dbUp now tid (some .failed) none none
          (some "Task cancelled by user")).world tid' = obsTask w tid')
  ∧ (obsTask (TaskStore.update_task w dbUp now tid (some .failed) none none
        (some "Task cancelled by user")).world tid = obsTask w tid
     ∨ (∃ t t', obsTask w tid = some t
          ∧ obsTask (TaskStore.update_task w dbUp now tid (some .failed) none none
              (some "Task cancelled by user")).world tid = some t'
          ∧ t'.status = .failed ∧ t'.result_data = t.result_data
          ∧ t'.error_message = some "Task cancelled by user"))
  ∧ (TaskStore.update_task w dbUp now tid (some .failed) none none
        (some "Task cancelled by user")).world.store.use_fallback = w.store.use_fallback
  ∧ (w.store.fallback_tasks = [] →
      (TaskStore.update_task w dbUp now tid (some .failed) none none
        (some "Task cancelled by user")).world.store.fallback_tasks = []) := by
  obtain ⟨wdb, wfb, wuf⟩ := w
  cases wuf
  · -- use_fallback is false: the fallback dict is empty
    have hfe : wfb = [] := hfb rfl
    subst hfe
    cases dbUp
    · -- durable update raises; the fallback branch finds nothing: a no-op
      exact ⟨fun _ _ => rfl, Or.inl rfl, rfl, fun _ => rfl⟩
    · -- durable update mutates the found row in the table
      rcases hr : rowFind wdb tid with _ | r
      · have h1 : update_task_in_db wdb now tid (some .failed) none none
            (some "Task cancelled by user") = (wdb, none) := by
          unfold update_task_in_db
          rw [hr]
        have hred : TaskStore.update_task ⟨wdb, ⟨[], false⟩⟩ true now tid (some .failed)
            none none (some "Task cancelled by user")
            = { ret := .ok false, world := ⟨wdb, ⟨[], false⟩⟩, durableInvoked := true } := by
          show ({ ret := .ok (update_task_in_db wdb now tid (some .failed) none none
                    (some "Task cancelled by user")).2.isSome
                  world := ⟨(update_task_in_db wdb now tid (some .failed) none none
                    (some "Task cancelled by user")).1, ⟨[], false⟩⟩
                  durableInvoked := true } : OpRet Bool) = _
          rw [h1]
          rfl
        rw [hred]
        exact ⟨fun _ _ => rfl, Or.inl rfl, rfl, fun _ => rfl⟩
      · have hrid : r.task_id = tid := rowFind_task_id wdb tid r hr
        have h1 : update_task_in_db wdb now tid (some .failed) none none
            (some "Task cancelled by user")
            = (setFirstRow wdb tid (updateRow r now (some .failed) none none
                (some "Task cancelled by user")),
               some (rowToTaskDB (updateRow r now (some .failed) none none
                (some "Task cancelled by user")))) := by
          unfold update_task_in_db
          rw [hr]
        have hred : TaskStore.update_task ⟨wdb, ⟨[], false⟩⟩ true now tid (some .failed)
            none none (some "Task cancelled by user")
            = { ret := .ok true
                world := ⟨setFirstRow wdb tid (updateRow r now (some .failed) none none
                  (some "Task cancelled by user")), ⟨[], false⟩⟩
                durableInvoked := true } := by
          show ({ ret := .ok (update_task_in_db wdb now tid (some .failed) none none
                    (some "Task cancelled by user")).2.isSome
                  world := ⟨(update_task_in_db wdb now tid (some .failed) none none
                    (some "Task cancelled by user")).1, ⟨[], false⟩⟩
                  durableInvoked := true } : OpRet Bool) = _
          rw [h1]
          rfl
        rw [hred]
        refine ⟨?_, ?_, rfl, fun _ => rfl⟩
        · intro tid' hne
          show Option.map rowToTaskDB (rowFind (setFirstRow wdb tid
              (updateRow r now (some .failed) none none
                (some "Task cancelled by user"))) tid')
            = Option.map rowToTaskDB (rowFind wdb tid')
          rw [rowFind_setFirstRow_ne _ _ _ _
            (show (updateRow r now (some .failed) none none
              (some "Task cancelled by user")).task_id = tid from hrid) hne]
        · refine Or.inr ⟨rowToTaskDB r,
            rowToTaskDB (updateRow r now (some .failed) none none
              (some "Task cancelled by user")), ?_, ?_, rfl, rfl, rfl⟩
          · show Option.map rowToTaskDB (rowFind wdb tid) = _
            rw [hr]
            rfl
          · show Option.map rowToTaskDB (rowFind (setFirstRow wdb tid
                (updateRow r now (some .failed) none none
                  (some "Task cancelled by user"))) tid) = _
            rw [rowFind_setFirstRow_self _ _ _
              (show (updateRow r now (some .failed) none none
                (some "Task cancelled by user")).task_id = tid from hrid), hr]
            rfl
  · -- use_fallback is true: only the fallback dict is consulted
    rcases hd : dictGet wfb tid with _ | t
    · have hred : TaskStore.update_task ⟨wdb, ⟨wfb, true⟩⟩ dbUp now tid (some .failed)
          none none (some "Task cancelled by user")
          = { ret := .ok false, world := ⟨wdb, ⟨wfb, true⟩⟩, durableInvoked := false } := by
        show TaskStore.updateFallback ⟨wdb, ⟨wfb, true⟩⟩ now tid (some .failed) none none
            (some "Task cancelled by user") false = _
        unfold TaskStore.updateFallback
        rw [hd]
      rw [hred]
      exact ⟨fun _ _ => rfl, Or.inl rfl, rfl, fun h => h⟩
    · have hred : TaskStore.update_task ⟨wdb, ⟨wfb, true⟩⟩ dbUp now tid (some .failed)
          none none (some "Task cancelled by user")
          = { ret := .ok true
              world := ⟨wdb, ⟨dictInsert wfb tid (TaskStore.applyFallbackUpdate t now
                (some .failed) none none (some "Task cancelled by user")), true⟩⟩
              durableInvoked := false } := by
        show TaskStore.updateFallback ⟨wdb, ⟨wfb, true⟩⟩ now tid (some .failed) none none
            (some "Task cancelled by user") false = _
        unfold TaskStore.updateFallback
        rw [hd]
      rw [hred]
      refine ⟨?_, ?_, rfl, ?_⟩
      · intro tid' hne
        show (match dictGet (dictInsert wfb tid (TaskStore.applyFallbackUpdate t now
            (some .failed) none none (some "Task cancelled by user"))) tid' with
          | some x => some x
          | none => get_task_from_db wdb tid') = obsTask ⟨wdb, ⟨wfb, true⟩⟩ tid'
        rw [dictGet_dictInsert_ne _ _ _ _ hne]
        rfl
      · refine Or.inr ⟨t, TaskStore.applyFallbackUpdate t now (some .failed) none none
            (some "Task cancelled by user"), ?_, ?_, rfl, rfl, rfl⟩
        · show (match dictGet wfb tid with
            | some x => some x
            | none => get_task_from_db wdb tid) = some t
          rw [hd]
        · show (match dictGet (dictInsert wfb tid (TaskStore.applyFallbackUpdate t now
              (some .failed) none none (some "Task cancelled by user"))) tid with
            | some x => some x
            | none => get_task_from_db wdb tid) = _
          rw [dictGet_dictInsert_self]
      · intro hemp
        have hemp2 : wfb = [] := hemp
        rw [hemp2] at hd
        simp [dictGet] at hd


theorem sysInv_step (s : ProcSys) (e : Event) (h : SysInv s) : SysInv (step s e) := by
  obtain ⟨h1, h2, h3⟩ := h
  cases e with
  | create request freshId dbUp now =>
    simp only [step]
    by_cases hg : (dictGet s.coro freshId).isSome = true
    · rw [if_pos hg]
      exact ⟨h1, h2, h3⟩
    · rw [if_neg hg]
      have hgn : dictGet s.coro freshId = none := by
        rcases hq : dictGet s.coro freshId with _ | v
        · rfl
        · rw [hq] at hg
          simp at hg
      have hnone : obsTask s.world freshId = none := h2 freshId hgn
      obtain ⟨hobsne, ⟨tnew, htnew, hst, hres, herr⟩, hstore⟩ :=
        create_task_obs s.world dbUp now freshId request hnone
      refine ⟨?_, ?_, ?_⟩
      · intro hf
        have hf' : (TaskStore.create_task s.world dbUp now freshId request).world.store.use_fallback
            = false := hf
        show (TaskStore.create_task s.world dbUp now freshId request).world.store.fallback_tasks
            = []
        rcases hstore with hs | hs
        · rw [hs]
          rw [hs] at hf'
          exact h1 hf'
        · rw [hs] at hf'
          cases hf'
      · intro tid hc
        have hc' : dictGet (s.coro ++ [(freshId, CoState.scheduled)]) tid = none := hc
        rw [dictGet_append_single] at hc'
        show obsTask (TaskStore.create_task s.world dbUp now freshId request).world tid = none
        by_cases hft : freshId = tid
        · rw [if_pos hft] at hc'
          rcases hq : dictGet s.coro tid with _ | v <;> rw [hq] at hc' <;>
            simp [Option.or] at hc'
        · rw [if_neg hft] at hc'
          have hcn : dictGet s.coro tid = none := by
            rcases hq : dictGet s.coro tid with _ | v
            · rfl
            · rw [hq] at hc'
              simp [Option.or] at hc'
          rw [hobsne tid (fun he => hft he.symm)]
          exact h2 tid hcn
      · intro tid t ht
        have ht' : obsTask (TaskStore.create_task s.world dbUp now freshId request).world tid
            = some t := ht
        by_cases hft : tid = freshId
        · subst hft
          rw [htnew] at ht'
          injection ht' with hte
          subst hte
          exact Or.inl ⟨hst, hres, herr⟩
        · rw [hobsne tid hft] at ht'
          exact h3 tid t ht'
  | runCoro tid dbUp =>
    simp only [step]
    by_cases hg : dictGet s.coro tid = some CoState.scheduled ∧ tid ∉ s.cancelled
    · rw [if_pos hg]
      refine ⟨?_, ?_, ?_⟩
      · intro hf
        have hf' : s.world.store.use_fallback = false := by
          have := process_analysis_world s.world dbUp tid
          rw [← this]
          exact hf
        show ({ s with
            world := (TaskProcessor.process_analysis s.world dbUp tid).2
            coro := dictInsert s.coro tid CoState.finished } : ProcSys).world.store.fallback_tasks
          = []
        rw [process_analysis_world]
        exact h1 hf'
      · intro tid' hc
        have hc' : dictGet (dictInsert s.coro tid CoState.finished) tid' = none := hc
        show obsTask ({ s with
            world := (TaskProcessor.process_analysis s.world dbUp tid).2
            coro := dictInsert s.coro tid CoState.finished } : ProcSys).world tid' = none
        rw [process_analysis_world]
        by_cases hft : tid = tid'
        · subst hft
          rw [dictGet_dictInsert_self] at hc'
          cases hc'
        · rw [dictGet_dictInsert_ne _ _ _ _ (fun he => hft he.symm)] at hc'
          exact h2 tid' hc'
      · intro tid' t ht
        have ht' : obsTask (TaskProcessor.process_analysis s.world dbUp tid).2 tid'
            = some t := ht
        rw [process_analysis_world] at ht'
        exact h3 tid' t ht'
    · rw [if_neg hg]
      exact ⟨h1, h2, h3⟩
  | cancel tid dbUp now =>
    simp only [step, TaskProcessor.cancel_task]
    by_cases hg : tid ∈ s.running
    · rw [if_pos hg]
      obtain ⟨hne, hsame, huf, hemp⟩ := update_failed_obs s.world dbUp now tid h1
      refine ⟨?_, ?_, ?_⟩
      · intro hf
        have hf' : (TaskStore.update_task s.world dbUp now tid (some .failed) none none
            (some "Task cancelled by user")).world.store.use_fallback = false := hf
        rw [huf] at hf'
        show (TaskStore.update_task s.world dbUp now tid (some .failed) none none
            (some "Task cancelled by user")).world.store.fallback_tasks = []
        exact hemp (h1 hf')
      · intro tid' hc
        have hc' : dictGet s.coro tid' = none := hc
        show obsTask (TaskStore.update_task s.world dbUp now tid (some .failed) none none
            (some "Task cancelled by user")).world tid' = none
        by_cases hft : tid' = tid
        · subst hft
          rcases hsame with hs | ⟨t, t', hold, hnew, _⟩
          · rw [hs]
            exact h2 tid' hc'
          · rw [h2 tid' hc'] at hold
            cases hold
        · rw [hne tid' hft]
          exact h2 tid' hc'
      · intro tid' t ht
        have ht' : obsTask (TaskStore.update_task s.world dbUp now tid (some .failed) none none
            (some "Task cancelled by user")).world tid' = some t := ht
        by_cases hft : tid' = tid
        · subst hft
          rcases hsame with hs | ⟨t0, t', hold, hnew, hst, hres, herr⟩
          · rw [hs] at ht'
            exact h3 tid' t ht'
          · rw [hnew] at ht'
            injection ht' with hte
            subst hte
            have hok0 := h3 tid' t0 hold
            right
            refine ⟨hst, ?_, herr⟩
            rw [hres]
            rcases hok0 with ⟨_, hr0, _⟩ | ⟨_, hr0, _⟩ <;> exact hr0
        · rw [hne tid' hft] at ht'
          exact h3 tid' t ht'
    · rw [if_neg hg]
      exact ⟨h1, h2, h3⟩
  | doneCb tid =>
    simp only [step]
    by_cases hg : tid ∈ s.running ∧ (dictGet s.coro tid = some CoState.finished ∨ tid ∈ s.cancelled)
    · rw [if_pos hg]
      exact ⟨h1, h2, h3⟩
    · rw [if_neg hg]
      exact ⟨h1, h2, h3⟩

theorem step_status (s : ProcSys) (e : Event) (tid : String) (h : SysInv s) :
    obsStatus (step s e) tid = obsStatus s tid
  ∨ (obsStatus s tid = none ∧ obsStatus (step s e) tid = some .pending)
  ∨ (obsStatus s tid = some .pending ∧ obsStatus (step s e) tid = some .failed)
  ∨ (obsStatus s tid = some .failed ∧ obsStatus (step s e) tid = some .failed) := by
  obtain ⟨h1, h2, h3⟩ := h
  cases e with
  | create request freshId dbUp now =>
    simp only [step]
    by_cases hg : (dictGet s.coro freshId).isSome = true
    · rw [if_pos hg]
      exact Or.inl rfl
    · rw [if_neg hg]
      have hgn : dictGet s.coro freshId = none := by
        rcases hq : dictGet s.coro freshId with _ | v
        · rfl
        · rw [hq] at hg
          simp at hg
      have hnone := h2 freshId hgn
      obtain ⟨hobsne, ⟨tnew, htnew, hst, _, _⟩, _⟩ :=
        create_task_obs s.world dbUp now freshId request hnone
      by_cases hft : tid = freshId
      · subst hft
        refine Or.inr (Or.inl ⟨?_, ?_⟩)
        · unfold obsStatus
          rw [hnone]
          rfl
        · show (obsTask (TaskStore.create_task s.world dbUp now tid request).world tid).map
            TaskDB.status = some .pending
          rw [htnew]
          simp [hst]
      · left
        show (obsTask (TaskStore.create_task s.world dbUp now freshId request).world tid).map
          TaskDB.status = obsStatus s tid
        rw [hobsne tid hft]
        rfl
  | runCoro tid2 dbUp =>
    simp only [step]
    by_cases hg : dictGet s.coro tid2 = some CoState.scheduled ∧ tid2 ∉ s.cancelled
    · rw [if_pos hg]
      left
      show (obsTask (TaskProcessor.process_analysis s.world dbUp tid2).2 tid).map
        TaskDB.status = obsStatus s tid
      rw [process_analysis_world]
      rfl
    · rw [if_neg hg]
      exact Or.inl rfl
  | cancel tid2 dbUp now =>
    simp only [step, TaskProcessor.cancel_task]
    by_cases hg : tid2 ∈ s.running
    · rw [if_pos hg]
      obtain ⟨hne, hsame, _, _⟩ := update_failed_obs s.world dbUp now tid2 h1
      by_cases hft : tid = tid2
      · subst hft
        rcases hsame with hs | ⟨t, t', hold, hnew, hstF, _, _⟩
        · left
          show (obsTask (TaskStore.update_task s.world dbUp now tid (some .failed) none none
              (some "Task cancelled by user")).world tid).map TaskDB.status = obsStatus s tid
          rw [hs]
          rfl
        · have hok := h3 tid t hold
          have hnewStat : (obsTask (TaskStore.update_task s.world dbUp now tid (some .failed)
              none none (some "Task cancelled by user")).world tid).map TaskDB.status
              = some TaskStatus.failed := by
            rw [hnew]
            simp [hstF]
          have holdStat : obsStatus s tid = some t.status := by
            unfold obsStatus
            rw [hold]
            rfl
          rcases hok with ⟨hps, _, _⟩ | ⟨hfs, _, _⟩
          · refine Or.inr (Or.inr (Or.inl ⟨?_, hnewStat⟩))
            rw [holdStat, hps]
          · refine Or.inr (Or.inr (Or.inr ⟨?_, hnewStat⟩))
            rw [holdStat, hfs]
      · left
        show (obsTask (TaskStore.update_task s.world dbUp now tid2 (some .failed) none none
            (some "Task cancelled by user")).world tid).map TaskDB.status = obsStatus s tid
        rw [hne tid hft]
        rfl
    · rw [if_neg hg]
      exact Or.inl rfl
  | doneCb tid2 =>
    simp only [step]
    by_cases hg : tid2 ∈ s.running
        ∧ (dictGet s.coro tid2 = some CoState.finished ∨ tid2 ∈ s.cancelled)
    · rw [if_pos hg]
      exact Or.inl rfl
    · rw [if_neg hg]
      exact Or.inl rfl

theorem isPrefixOf_nil_elim {α : Type} [BEq α] (l : List α)
    (h : l.isPrefixOf ([] : List α) = true) : l = [] := by
  cases l with
  | nil => rfl
  | cons x xs => simp [List.isPrefixOf] at h

theorem sysInv_init : SysInv initSys := by
  refine ⟨fun _ => rfl, fun tid _ => rfl, fun tid t ht => ?_⟩
  simp [obsTask, dictGet, get_task_from_db, rowFind, initSys, initStore] at ht

theorem traceAux_isPrefix (tid : String) :
    ∀ (es : List Event) (s : ProcSys), SysInv s →
      (traceAux s tid (obsStatus s tid) es).isPrefixOf (chainFrom (obsStatus s tid)) = true := by
  intro es
  induction es with
  | nil =>
    intro s hInv
    rw [traceAux]
    cases chainFrom (obsStatus s tid) <;> rfl
  | cons e rest ih =>
    intro s hInv
    have hInv' := sysInv_step s e hInv
    have hstep := step_status s e tid hInv
    have ihs := ih (step s e) hInv'
    rw [traceAux]
    rcases hstep with heq | ⟨ha, hb⟩ | ⟨ha, hb⟩ | ⟨ha, hb⟩
    · rw [heq]
      simp only [ne_eq, not_true_eq_false, if_false, List.nil_append]
      rw [← heq]
      exact ihs
    · rw [ha, hb]
      rw [hb] at ihs
      simp only [ne_eq, reduceCtorEq, not_false_eq_true, if_true, Option.toList_some]
      show ((TaskStatus.pending :: []) ++ _).isPrefixOf
        (TaskStatus.pending :: TaskStatus.failed :: []) = true
      rw [List.cons_append, List.isPrefixOf_cons₂]
      exact ihs
    · rw [ha, hb]
      rw [hb] at ihs
      have hnil := isPrefixOf_nil_elim _ ihs
      simp only [ne_eq, Option.some.injEq, reduceCtorEq, not_false_eq_true, if_true,
        Option.toList_some]
      rw [hnil]
      rfl
    · have heq : obsStatus (step s e) tid = obsStatus s tid := by
        rw [ha, hb]
      rw [heq]
      simp only [ne_eq, not_true_eq_false, if_false, List.nil_append]
      rw [← heq]
      exact ihs

theorem statusTrace_isPrefix (es : List Event) (tid : String) :
    (statusTrace es tid).isPrefixOf [TaskStatus.pending, TaskStatus.failed] = true :=
  traceAux_isPrefix tid es initSys sysInv_init

theorem sysInv_run_aux : ∀ (es : List Event) (s : ProcSys),
    SysInv s → SysInv (es.foldl step s) := by
  intro es
  induction es with
  | nil => intro s h; exact h
  | cons e rest ih => intro s h; exact ih (step s e) (sysInv_step s e h)

theorem sysInv_run (es : List Event) : SysInv (run es) :=
  sysInv_run_aux es initSys sysInv_init

theorem run_take_succ (es : List Event) (k : Nat) :
    run (es.take (k + 1))
      = match es[k]? with
        | some e => step (run (es.take k)) e
        | none => run (es.take k) := by
  unfold run
  rw [List.take_succ, List.foldl_append]
  rcases hk : es[k]? with _ | e <;> rfl

/-! ### Claim C3 -/

/-- C3 counterexample: cancelling a task while it is still Pending drives
its record directly from Pending to Failed, skipping Processing — so the
observed status sequence [Pending, Failed] is not a prefix of
Pending → Processing → (Completed | Failed) as the claim requires. -/
theorem c3_counterexample :
    statusTrace c3events "t" = [TaskStatus.pending, TaskStatus.failed]
  ∧ ((statusTrace c3events "t").isPrefixOf
        [TaskStatus.pending, TaskStatus.processing, TaskStatus.completed]
      || (statusTrace c3events "t").isPrefixOf
        [TaskStatus.pending, TaskStatus.processing, TaskStatus.failed]) = false :=
  ⟨by decide, by decide⟩

/-- C3 (amended): under any interleaving of creates, coroutine runs,
cancels and done-callbacks, the observed status sequence of every task is
a prefix of Pending → Processing → (Completed | Failed) or of
Pending → Failed (a cancel may skip Processing; in this code the processor
itself crashes before writing, see C2, so Processing and Completed are in
fact never observed), and no step ever changes a status that is already
terminal (Completed or Failed). -/
theorem c3_status_machine (es : List Event) (tid : String) :
    ((statusTrace es tid).isPrefixOf
        [TaskStatus.pending, TaskStatus.processing, TaskStatus.completed] = true
      ∨ (statusTrace es tid).isPrefixOf
        [TaskStatus.pending, TaskStatus.processing, TaskStatus.failed] = true
      ∨ (statusTrace es tid).isPrefixOf [TaskStatus.pending, TaskStatus.failed] = true)
  ∧ (∀ (k : Nat) (st : TaskStatus),
      obsStatus (run (es.take k)) tid = some st → st.isTerminal = true →
      obsStatus (run (es.take (k + 1))) tid = some st) := by
  constructor
  · exact Or.inr (Or.inr (statusTrace_isPrefix es tid))
  · intro k st hobs hterm
    rw [run_take_succ]
    rcases hk : es[k]? with _ | e
    · exact hobs
    · have hInv := sysInv_run (es.take k)
      have hstep := step_status (run (es.take k)) e tid hInv
      have hst_failed : st = .failed := by
        obtain ⟨-, -, h3⟩ := hInv
        unfold obsStatus at hobs
        rcases ho : obsTask (run (es.take k)).world tid with _ | t
        · rw [ho] at hobs
          cases hobs
        · rw [ho] at hobs
          injection hobs with hsv
          rcases h3 tid t ho with ⟨hp, _, _⟩ | ⟨hf, _, _⟩
          · rw [← hsv, hp] at hterm
            cases hterm
          · rw [← hsv]
            exact hf
      subst hst_failed
      rcases hstep with heq | ⟨ha, _⟩ | ⟨ha, _⟩ | ⟨_, hb⟩
      · rw [heq]
        exact hobs
      · rw [hobs] at ha
        simp at ha
      · rw [hobs] at ha
        simp at ha
      · exact hb

/-- Witness for C3 (amended): in the concrete run `c3events` the terminal
Failed status persists under a further step. -/
theorem c3_witness :
    obsStatus (run (c3events.take 2)) "t" = some TaskStatus.failed
  ∧ obsStatus (run (c3events.take 3)) "t" = some TaskStatus.failed := by
  have h := c3_status_machine c3events "t"
  exact ⟨by decide, h.2 2 .failed (by decide) (by decide)⟩

/-! ### Claim C4 -/

/-- C4: every task record reachable under the system's writers has at most
one of result payload and error message non-empty; Completed records (none
are ever produced by this code, see C2) would carry a result and no error,
and Failed records carry an error and no result. -/
theorem c4_result_error_exclusive (es : List Event) (tid : String) (t : TaskDB)
    (h : obsTask (run es).world tid = some t) :
    (t.status = .completed → t.result_data ≠ none ∧ t.error_message = none)
  ∧ (t.status = .failed → t.error_message ≠ none ∧ t.result_data = none)
  ∧ (t.result_data = none ∨ t.error_message = none) := by
  have hok := (sysInv_run es).2.2 tid t h
  rcases hok with ⟨hs, hr, he⟩ | ⟨hs, hr, he⟩
  · refine ⟨?_, ?_, Or.inl hr⟩
    · intro hc
      rw [hs] at hc
      cases hc
    · intro hc
      rw [hs] at hc
      cases hc
  · refine ⟨?_, ?_, Or.inl hr⟩
    · intro hc
      rw [hs] at hc
      cases hc
    · intro _
      refine ⟨?_, hr⟩
      rw [he]
      simp

/-- Witness for C4 at the concrete reachable record of `c3events`. -/
theorem c4_witness :
    c4task.error_message ≠ none ∧ c4task.result_data = none := by
  have h := c4_result_error_exclusive c3events "t" c4task (by decide)
  exact h.2.1 rfl

end DisasterAI
